import Mathlib

/-!
# Verification of `fastboot-s3-downloader` (`src/index.js`)

Shallow embedding of the staged-deployment pipeline implemented by the
`S3Downloader` class.  JavaScript strings are modelled as `List Char`
(`JStr`); the local filesystem is a finite map from paths to abstract
content identifiers; promise results are modelled by `Outcome`, which has
a third constructor `pending` for a promise that never settles (needed
because `unzipApp`'s exhaustion branch attaches its `reject` only to the
fulfilled path of the restore promise).  External effects (S3, the shell,
`fs-extra`) are resolved by an `Env` record of outcomes, and every
externally visible call is recorded in an event trace.
-/

set_option maxRecDepth 4000

/-- JavaScript strings, modelled as lists of characters. -/
abbrev JStr := List Char

/-- JS truthiness of a possibly-undefined string field: `undefined` and the
empty string are falsy (`!this.outputPath` etc.). -/
def truthy : Option JStr → Bool
  | none => false
  | some s => !s.isEmpty

/-- JS string coercion used by `'unzip ' + this.zipPath`: `undefined`
prints as `"undefined"`. -/
def jsStr : Option JStr → JStr
  | none => "undefined".toList
  | some s => s

/-- `s.split(c)` for a single-character separator, JS semantics:
`"".split('-') = [""]`. -/
def splitOnChar (c : Char) : JStr → List JStr
  | [] => [[]]
  | x :: xs =>
    let r := splitOnChar c xs
    if x = c then [] :: r
    else
      match r with
      | [] => [[x]]
      | y :: ys => (x :: y) :: ys

/-- `parts.join(c)` for a single-character separator. -/
def joinWith (c : Char) : List JStr → JStr
  | [] => []
  | [x] => x
  | x :: xs => x ++ c :: joinWith c xs

/-- Node `path.basename(p)` (posix): drop trailing `/` characters, then
take everything after the last remaining `/`. -/
def jsBasename (p : JStr) : JStr :=
  ((p.reverse.dropWhile (· = '/')).takeWhile (· ≠ '/')).reverse

/-- The extension argument `'.zip'` of `path.basename` in `outputPathFor`. -/
def zipExt : JStr := ".zip".toList

/-- Node strips a matched extension by slicing it off the end. -/
def stripEnd (ext b : JStr) : JStr := b.take (b.length - ext.length)

/-- Node `path.basename(p, ext)`: the extension is removed only when it is
a proper suffix of the basename (`path.basename('.zip', '.zip') = '.zip'`). -/
def jsBasenameExt (p ext : JStr) : JStr :=
  let b := jsBasename p
  if b ≠ ext ∧ ext.isSuffixOf b then stripEnd ext b else b

/-- `src/index.js` line 9: `const maxNumUnzipAttempts = 5`. -/
def maxNumUnzipAttempts : Nat := 5

/-- `src/index.js` lines 164-166: `holdingPathFor(path) = path + '-holding'`. -/
def holdingPathFor (path : JStr) : JStr := path ++ "-holding".toList

/-- `src/index.js` lines 168-173:
`outputPathFor(zipPath)` = basename of `zipPath` with the `.zip` extension
stripped, split on `-`, last segment dropped, rejoined with `-`. -/
def outputPathFor (zipPath : JStr) : JStr :=
  let name := jsBasenameExt zipPath zipExt
  joinWith '-' ((splitOnChar '-' name).dropLast)

/-- Errors with which a promise in this module can reject. -/
inductive JsErr where
  /-- `AppNotFoundError` (missing bucket/key configuration). -/
  | appNotFoundError
  /-- rejection inside `fetchCurrentVersion` (S3 `getObject` failure or
  `JSON.parse` throwing). -/
  | fetchError
  /-- the `'error'` event of the download stream in `downloadAppZip`. -/
  | streamError
  /-- rejection of `fsp.move`. -/
  | moveError
  /-- rejection of `fsp.remove`. -/
  | removeError
  /-- `new Error('exceeded unzip attempt limit')`. -/
  | unzipLimitError
deriving DecidableEq, Repr

/-- Result of a promise: fulfilled, rejected, or never settled. -/
inductive Outcome (α : Type) where
  | ok (a : α)
  | err (e : JsErr)
  | pending
deriving DecidableEq, Repr

/-- Externally visible calls, in chronological order. -/
inductive Event where
  /-- buffered S3 `getObject(...).promise()` (the pointer fetch). -/
  | s3GetObject (bucket key : Option JStr)
  /-- streaming S3 `getObject` used by `downloadAppZip`. -/
  | s3Stream (bucket key : Option JStr)
  /-- an attempted `fsp.move(src, dst, { overwrite: true })`. -/
  | fsMove (src dst : JStr)
  /-- an attempted `fsp.remove(p)`. -/
  | fsRemove (p : JStr)
  /-- a shell command handed to `exec`. -/
  | execCmd (cmd : JStr)
deriving DecidableEq, Repr

/-- The local filesystem: a finite map from paths to abstract content
identifiers (directories and their whole contents are opaque). -/
structure FS where
  entries : List (JStr × Nat)
deriving DecidableEq, Repr

/-- Look up a path in an entry list. -/
def lookupPath : List (JStr × Nat) → JStr → Option Nat
  | [], _ => none
  | e :: es, p => if e.1 = p then some e.2 else lookupPath es p

/-- Delete every entry of a path from an entry list. -/
def removePath : List (JStr × Nat) → JStr → List (JStr × Nat)
  | [], _ => []
  | e :: es, p => if e.1 = p then removePath es p else e :: removePath es p

def FS.get (fs : FS) (p : JStr) : Option Nat := lookupPath fs.entries p

def FS.erase (fs : FS) (p : JStr) : FS := ⟨removePath fs.entries p⟩

def FS.set (fs : FS) (p : JStr) (c : Nat) : FS := ⟨(p, c) :: removePath fs.entries p⟩

/-- The mutable instance fields of `S3Downloader`; fields not yet assigned
are `none` (JS `undefined`). -/
structure DState where
  configBucket : Option JStr
  configKey : Option JStr
  appBucket : Option JStr := none
  appKey : Option JStr := none
  zipPath : Option JStr := none
  outputPath : Option JStr := none
  originalPath : Option JStr := none
  holdingPath : Option JStr := none
deriving DecidableEq, Repr

/-- Downloader fields plus filesystem plus the trace of external calls. -/
structure Sys where
  st : DState
  fs : FS
  events : List Event
deriving DecidableEq, Repr

def Sys.log (s : Sys) (e : Event) : Sys :=
  { s with events := s.events ++ [e] }

/-- The JSON pointer document `{ bucket, key }` read by
`fetchCurrentVersion`. -/
structure Pointer where
  bucket : JStr
  key : JStr
deriving DecidableEq, Repr

/-- Outcomes of the external world for one deployment attempt.  `moveOk`
and `removeOk` model environmental failures (permissions etc.) of the
`fs-extra` calls; a move of a nonexistent source fails regardless. -/
structure Env where
  /-- `some cfg` when the pointer fetch resolves and its body parses;
  `none` when `getObject` rejects or `JSON.parse` throws. -/
  fetchResult : Option Pointer
  /-- whether the artifact download stream finishes with `close` (`true`)
  or `error` (`false`). -/
  downloadOk : Bool
  /-- whether the `unzip` command of the n-th attempt (1-indexed) exits
  successfully. -/
  unzipOk : Nat → Bool
  /-- content identifier of the directory a successful `unzip`
  materialises at `outputPath`. -/
  newAppContent : Nat
  /-- environmental success of `fsp.move src dst` given the source exists. -/
  moveOk : JStr → JStr → Bool
  /-- whether `fsp.remove` resolves. -/
  removeOk : Bool

/-- `fsp.move(src, dst, { overwrite: true })`: rejects when the source
does not exist; otherwise, when the environment permits, replaces any
entry at `dst` with the contents of `src` and deletes `src`. -/
def fspMove (env : Env) (src dst : JStr) (s : Sys) : Outcome Unit × Sys :=
  let s := s.log (.fsMove src dst)
  match FS.get s.fs src with
  | none => (.err .moveError, s)
  | some c =>
    if env.moveOk src dst then (.ok (), { s with fs := (s.fs.erase src).set dst c })
    else (.err .moveError, s)

/-- `src/index.js` lines 82-103.  On resolution the instance fields
`appBucket`, `appKey`, `zipPath`, `outputPath` are assigned; any rejection
(fetch or parse) is `fetchError`. -/
def fetchCurrentVersion (env : Env) (s : Sys) : Outcome Unit × Sys :=
  let s := s.log (.s3GetObject s.st.configBucket s.st.configKey)
  match env.fetchResult with
  | none => (.err .fetchError, s)
  | some cfg =>
    let zp := jsBasename cfg.key
    (.ok (), { s with st := { s.st with
      appBucket := some cfg.bucket
      appKey := some cfg.key
      zipPath := some zp
      outputPath := some (outputPathFor zp) } })

/-- `src/index.js` lines 49-60.  The guard is JS falsiness of
`this.outputPath` (unassigned or empty string); otherwise the
`originalPath` and `holdingPath` fields are assigned before the move is
attempted. -/
def moveOldAppIntoHolding (env : Env) (s : Sys) : Outcome Unit × Sys :=
  match s.st.outputPath with
  | none => (.ok (), s)
  | some op =>
    if op.isEmpty then (.ok (), s)
    else
      let st' := { s.st with originalPath := some op, holdingPath := some (holdingPathFor op) }
      fspMove env op (holdingPathFor op) { s with st := st' }

/-- `src/index.js` lines 62-70.  No-op when either `originalPath` or
`holdingPath` is falsy; otherwise move holding back onto the original
path. -/
def restoreOldAppFromHolding (env : Env) (s : Sys) : Outcome Unit × Sys :=
  match s.st.originalPath, s.st.holdingPath with
  | some orig, some hold =>
    if orig.isEmpty || hold.isEmpty then (.ok (), s)
    else fspMove env hold orig s
  | some _, none => (.ok (), s)
  | none, _ => (.ok (), s)

/-- `src/index.js` lines 72-80.  No-op when `holdingPath` is falsy;
otherwise `fsp.remove(holdingPath)` (which succeeds on a missing path). -/
def removeOldApp (env : Env) (s : Sys) : Outcome Unit × Sys :=
  match s.st.holdingPath with
  | none => (.ok (), s)
  | some hold =>
    if hold.isEmpty then (.ok (), s)
    else
      let s := s.log (.fsRemove hold)
      if env.removeOk then (.ok (), { s with fs := s.fs.erase hold })
      else (.err .removeError, s)

/-- `src/index.js` lines 105-125: stream the artifact object to the local
zip path.  The byte stream writes the zip file, which is outside the
directory map; the call itself is traced. -/
def downloadAppZip (env : Env) (s : Sys) : Outcome Unit × Sys :=
  let s := s.log (.s3Stream s.st.appBucket s.st.appKey)
  if env.downloadOk then (.ok (), s) else (.err .streamError, s)

/-- The command string `'unzip ' + zipPath`. -/
def unzipCmd (zipPath : Option JStr) : JStr := "unzip ".toList ++ jsStr zipPath

/-- Modelled effect of a successful `unzip`: the archive materialises the
directory named by `outputPath` (the external command's semantics; when
`outputPath` is falsy the tracked directories are unaffected). -/
def applyUnzipEffect (env : Env) (s : Sys) : Sys :=
  match s.st.outputPath with
  | none => s
  | some op =>
    if op.isEmpty then s else { s with fs := s.fs.set op env.newAppContent }

/-- `src/index.js` lines 127-141 for a normalised attempt number `n ≥ 1`.
When `n > maxNumUnzipAttempts`, the code restores the old app and rejects
with the limit error **only on the fulfilled path of the restore**: if the
restore itself rejects, the promise returned by `unzipApp` never settles
(`pending`).  Otherwise the `unzip` command is run; on success the
extraction materialises `outputPath`, on failure the next attempt is made
immediately. -/
def unzipFrom (env : Env) (n : Nat) (s : Sys) : Outcome Unit × Sys :=
  if h : n > maxNumUnzipAttempts then
    match restoreOldAppFromHolding env s with
    | (.ok _, s') => (.err .unzipLimitError, s')
    | (.err _, s') => (.pending, s')
    | (.pending, s') => (.pending, s')
  else
    let s := s.log (.execCmd (unzipCmd s.st.zipPath))
    if env.unzipOk n then (.ok (), applyUnzipEffect env s)
    else unzipFrom env (n + 1) s
termination_by maxNumUnzipAttempts + 1 - n
decreasing_by simp [maxNumUnzipAttempts] at *; omega

/-- `src/index.js` line 127-128: `attemptNumber = attemptNumber || 1`
(`undefined` and `0` normalise to `1`); the recursive calls inside
`unzipFrom` pass `n + 1 ≥ 1`, on which this normalisation is the
identity. -/
def unzipApp (env : Env) (attemptNumber : Option Nat) (s : Sys) : Outcome Unit × Sys :=
  unzipFrom env (match attemptNumber with
    | none => 1
    | some k => if k = 0 then 1 else k) s

/-- The npm command string. -/
def npmCmd (outputPath : Option JStr) : JStr :=
  "cd ".toList ++ jsStr outputPath ++ " && npm install".toList

/-- `src/index.js` lines 143-147: the command is run and any failure is
swallowed by the `.catch` (only an error line is written), so the promise
always fulfils. -/
def installNPMDependencies (_env : Env) (s : Sys) : Outcome Unit × Sys :=
  let s := s.log (.execCmd (npmCmd s.st.outputPath))
  (.ok (), s)

/-- Promise chaining: `.then` runs the continuation only on fulfilment;
rejection and non-settlement short-circuit. -/
def andThen {α : Type} (r : Outcome Unit × Sys) (f : Sys → Outcome α × Sys) :
    Outcome α × Sys :=
  match r with
  | (.ok _, s) => f s
  | (.err e, s) => (.err e, s)
  | (.pending, s) => (.pending, s)

/-- `src/index.js` lines 34-47: the full deployment pipeline.  The guard
rejects with `AppNotFoundError` when `configBucket` or `configKey` is
falsy, before any external call. -/
def download (env : Env) (s : Sys) : Outcome (Option JStr) × Sys :=
  if truthy s.st.configBucket && truthy s.st.configKey then
    andThen (fetchCurrentVersion env s) (fun s =>
    andThen (moveOldAppIntoHolding env s) (fun s =>
    andThen (downloadAppZip env s) (fun s =>
    andThen (unzipApp env none s) (fun s =>
    andThen (removeOldApp env s) (fun s =>
    andThen (installNPMDependencies env s) (fun s =>
    (.ok s.st.outputPath, s)))))))
  else (.err .appNotFoundError, s)

/-- A fresh `S3Downloader` instance over a given filesystem: only the
constructor-assigned fields are set, the trace is empty. -/
def initSys (bucket key : Option JStr) (fs : FS) : Sys :=
  ⟨{ configBucket := bucket, configKey := key }, fs, []⟩

/-! ## Helper lemmas about the path functions and the filesystem map -/

theorem jsBasename_no_slash (p : JStr) : '/' ∉ jsBasename p := by
  intro h
  rw [jsBasename, List.mem_reverse] at h
  have := List.mem_takeWhile_imp h
  simp at this

theorem jsBasename_idem (p : JStr) : jsBasename (jsBasename p) = jsBasename p := by
  have h : ∀ c ∈ (jsBasename p).reverse, c ≠ '/' := by
    intro c hc
    rw [List.mem_reverse] at hc
    intro hEq
    exact jsBasename_no_slash p (hEq ▸ hc)
  have hdrop : (jsBasename p).reverse.dropWhile (· = '/') = (jsBasename p).reverse := by
    cases hrev : (jsBasename p).reverse with
    | nil => simp
    | cons x xs =>
      have hx : x ≠ '/' := by
        apply h
        rw [hrev]
        exact List.mem_cons_self x xs
      simp [List.dropWhile_cons, hx]
  conv_lhs => rw [jsBasename]
  rw [hdrop, List.takeWhile_eq_self_iff.mpr ?side, List.reverse_reverse]
  case side =>
    intro c hc
    simpa using h c hc

theorem lookupPath_removePath_self (es : List (JStr × Nat)) (p : JStr) :
    lookupPath (removePath es p) p = none := by
  induction es with
  | nil => rfl
  | cons e es ih =>
    by_cases h : e.1 = p
    · simpa [removePath, h] using ih
    · simpa [removePath, lookupPath, h] using ih

theorem lookupPath_removePath_ne (es : List (JStr × Nat)) (p q : JStr) (h : p ≠ q) :
    lookupPath (removePath es p) q = lookupPath es q := by
  induction es with
  | nil => rfl
  | cons e es ih =>
    by_cases h1 : e.1 = p
    · have h2 : ¬ e.1 = q := fun hq => h (h1 ▸ hq)
      rw [removePath, if_pos h1, ih, lookupPath, if_neg h2]
    · by_cases h2 : e.1 = q
      · rw [removePath, if_neg h1, lookupPath, if_pos h2, lookupPath, if_pos h2]
      · rw [removePath, if_neg h1, lookupPath, if_neg h2, ih, lookupPath, if_neg h2]

theorem FS.get_set_self (fs : FS) (p : JStr) (c : Nat) : (fs.set p c).get p = some c := by
  simp [FS.set, FS.get, lookupPath]

theorem FS.get_erase_self (fs : FS) (p : JStr) : (fs.erase p).get p = none :=
  lookupPath_removePath_self fs.entries p

theorem FS.get_erase_ne (fs : FS) (p q : JStr) (h : p ≠ q) :
    (fs.erase p).get q = fs.get q :=
  lookupPath_removePath_ne fs.entries p q h

theorem FS.get_set_ne (fs : FS) (p q : JStr) (c : Nat) (h : p ≠ q) :
    (fs.set p c).get q = fs.get q := by
  rw [FS.set, FS.get, FS.get, lookupPath]
  simp only [h, if_false]
  exact lookupPath_removePath_ne fs.entries p q h

theorem holdingPathFor_ne (op : JStr) : holdingPathFor op ≠ op := by
  intro h
  have := congrArg List.length h
  simp [holdingPathFor] at this

theorem ne_holdingPathFor (op : JStr) : op ≠ holdingPathFor op := fun h =>
  holdingPathFor_ne op h.symm

/-! ## C5: derivation of the output path -/

/-- Formalisation of the spec's own wording for the output-path
derivation (section 4.1 / testable property 1): take the file-name
portion of the artifact key, strip the trailing `.zip` extension, split on
`-`, drop the last segment, rejoin with `-`.  Refinement target to be
compared with `outputPathFor` from the source. -/
def specOutputPathFor (key : JStr) : JStr :=
  let fileName := jsBasename key
  let stem := if zipExt.isSuffixOf fileName then stripEnd zipExt fileName else fileName
  joinWith '-' ((splitOnChar '-' stem).dropLast)

theorem outputPathFor_matches_spec (key : JStr) :
    outputPathFor (jsBasename key) = specOutputPathFor key := by
  rw [outputPathFor, specOutputPathFor, jsBasenameExt, jsBasename_idem]
  by_cases hsuf : zipExt.isSuffixOf (jsBasename key) = true
  · by_cases heq : jsBasename key = zipExt
    · rw [heq]
      decide
    · rw [if_pos ⟨heq, hsuf⟩, if_pos hsuf]
  · have hcond : ¬(jsBasename key ≠ zipExt ∧ zipExt.isSuffixOf (jsBasename key) = true) :=
      fun hc => hsuf hc.2
    rw [if_neg hcond, if_neg hsuf]

/-- C5: for every pointer document the fetch step derives `outputPath` as
the file-name portion of the artifact key with the trailing `.zip`
extension stripped and the final `-`-delimited segment removed, the
remaining segments rejoined with `-` — a deterministic pure function of
the file name (`specOutputPathFor`). -/
theorem C5_outputPath_derivation (env : Env) (s : Sys) (cfg : Pointer)
    (h : env.fetchResult = some cfg) :
    (fetchCurrentVersion env s).1 = .ok () ∧
    (fetchCurrentVersion env s).2.st.outputPath = some (specOutputPathFor cfg.key) := by
  rw [← outputPathFor_matches_spec]
  simp [fetchCurrentVersion, h, Sys.log]

/-- Sample environment: pointer designates `releases/foo-bar-deadbeef.zip`
and every external operation succeeds. -/
def envHappy : Env := {
  fetchResult := some ⟨"b".toList, "releases/foo-bar-deadbeef.zip".toList⟩
  downloadOk := true
  unzipOk := fun _ => true
  newAppContent := 7
  moveOk := fun _ _ => true
  removeOk := true }

theorem C5_outputPath_derivation_witness :
    envHappy.fetchResult = some ⟨"b".toList, "releases/foo-bar-deadbeef.zip".toList⟩ ∧
    ((fetchCurrentVersion envHappy (initSys (some "B".toList) (some "K".toList) ⟨[]⟩)).1
        = .ok () ∧
      (fetchCurrentVersion envHappy
            (initSys (some "B".toList) (some "K".toList) ⟨[]⟩)).2.st.outputPath
        = some (specOutputPathFor "releases/foo-bar-deadbeef.zip".toList)) ∧
    specOutputPathFor "releases/foo-bar-deadbeef.zip".toList = "foo-bar".toList :=
  ⟨rfl,
   C5_outputPath_derivation envHappy (initSys (some "B".toList) (some "K".toList) ⟨[]⟩)
     ⟨"b".toList, "releases/foo-bar-deadbeef.zip".toList⟩ rfl,
   by decide⟩

/-! ## C7: missing configuration fails fast -/

/-- C7: when the configured bucket or key is missing or empty, `download`
rejects immediately with `AppNotFoundError`, leaving the system untouched:
no S3 call, no shell command, no filesystem change (the trace stays empty
and the whole `Sys` is returned unchanged). -/
theorem C7_missing_config_fails_fast (env : Env) (b k : Option JStr) (fs : FS)
    (h : truthy b = false ∨ truthy k = false) :
    download env (initSys b k fs) = (.err .appNotFoundError, initSys b k fs) ∧
    (initSys b k fs).events = [] := by
  refine ⟨?_, rfl⟩
  rcases h with h | h <;> simp [download, initSys, h]

theorem C7_missing_config_fails_fast_witness :
    (truthy none = false ∨ truthy (some "k".toList) = false) ∧
    (download envHappy (initSys none (some "k".toList) ⟨[("app".toList, 3)]⟩)
        = (.err .appNotFoundError, initSys none (some "k".toList) ⟨[("app".toList, 3)]⟩) ∧
      (initSys none (some "k".toList) ⟨[("app".toList, 3)]⟩).events = []) :=
  ⟨Or.inl rfl,
   C7_missing_config_fails_fast envHappy none (some "k".toList) ⟨[("app".toList, 3)]⟩
     (Or.inl rfl)⟩

theorem isEmpty_false_of_ne {l : JStr} (h : l ≠ []) : l.isEmpty = false := by
  cases l with
  | nil => exact absurd rfl h
  | cons x xs => rfl

/-! ## C10: the moves overwrite existing destinations -/

/-- C10: both `fsp.move` calls pass `{ overwrite: true }`.  Staging with a
directory already present at `outputPath-holding` succeeds and replaces it
with the old app's contents; a rollback with a directory already present
at the original path succeeds and replaces it with the holding
directory's contents. -/
theorem C10_moves_overwrite :
    (∀ (env : Env) (s : Sys) (op : JStr) (c d : Nat),
      s.st.outputPath = some op → op ≠ [] →
      s.fs.get op = some c → s.fs.get (holdingPathFor op) = some d →
      env.moveOk op (holdingPathFor op) = true →
      (moveOldAppIntoHolding env s).1 = .ok () ∧
      (moveOldAppIntoHolding env s).2.fs.get (holdingPathFor op) = some c ∧
      (moveOldAppIntoHolding env s).2.fs.get op = none) ∧
    (∀ (env : Env) (s : Sys) (orig hold : JStr) (c d : Nat),
      s.st.originalPath = some orig → s.st.holdingPath = some hold →
      orig ≠ [] → hold ≠ [] → hold ≠ orig →
      s.fs.get hold = some c → s.fs.get orig = some d →
      env.moveOk hold orig = true →
      (restoreOldAppFromHolding env s).1 = .ok () ∧
      (restoreOldAppFromHolding env s).2.fs.get orig = some c ∧
      (restoreOldAppFromHolding env s).2.fs.get hold = none) := by
  constructor
  · intro env s op c d hout hne hsrc _hdst hmv
    have hemp := isEmpty_false_of_ne hne
    refine ⟨?_, ?_, ?_⟩
    · simp [moveOldAppIntoHolding, hout, hemp, fspMove, Sys.log, hsrc, hmv]
    · simp [moveOldAppIntoHolding, hout, hemp, fspMove, Sys.log, hsrc, hmv, FS.get_set_self]
    · simp [moveOldAppIntoHolding, hout, hemp, fspMove, Sys.log, hsrc, hmv,
        FS.get_set_ne _ _ _ _ (holdingPathFor_ne op), FS.get_erase_self]
  · intro env s orig hold c d horig hhold hne1 hne2 hne3 hsrc _hdst hmv
    have hemp1 := isEmpty_false_of_ne hne1
    have hemp2 := isEmpty_false_of_ne hne2
    refine ⟨?_, ?_, ?_⟩
    · simp [restoreOldAppFromHolding, horig, hhold, hemp1, hemp2, fspMove, Sys.log, hsrc, hmv]
    · simp [restoreOldAppFromHolding, horig, hhold, hemp1, hemp2, fspMove, Sys.log, hsrc, hmv,
        FS.get_set_self]
    · simp [restoreOldAppFromHolding, horig, hhold, hemp1, hemp2, fspMove, Sys.log, hsrc, hmv,
        FS.get_set_ne _ _ _ _ (Ne.symm hne3), FS.get_erase_self]

theorem C10_moves_overwrite_witness :
    ((moveOldAppIntoHolding envHappy
        ⟨{ configBucket := none, configKey := none, outputPath := some "app".toList },
         ⟨[("app".toList, 3), ("app-holding".toList, 9)]⟩, []⟩).1 = .ok () ∧
      (moveOldAppIntoHolding envHappy
        ⟨{ configBucket := none, configKey := none, outputPath := some "app".toList },
         ⟨[("app".toList, 3), ("app-holding".toList, 9)]⟩, []⟩).2.fs.get
          (holdingPathFor "app".toList) = some 3 ∧
      (moveOldAppIntoHolding envHappy
        ⟨{ configBucket := none, configKey := none, outputPath := some "app".toList },
         ⟨[("app".toList, 3), ("app-holding".toList, 9)]⟩, []⟩).2.fs.get "app".toList = none) ∧
    ((restoreOldAppFromHolding envHappy
        ⟨{ configBucket := none, configKey := none, originalPath := some "app".toList,
           holdingPath := some "app-holding".toList },
         ⟨[("app".toList, 4), ("app-holding".toList, 3)]⟩, []⟩).1 = .ok () ∧
      (restoreOldAppFromHolding envHappy
        ⟨{ configBucket := none, configKey := none, originalPath := some "app".toList,
           holdingPath := some "app-holding".toList },
         ⟨[("app".toList, 4), ("app-holding".toList, 3)]⟩, []⟩).2.fs.get "app".toList = some 3 ∧
      (restoreOldAppFromHolding envHappy
        ⟨{ configBucket := none, configKey := none, originalPath := some "app".toList,
           holdingPath := some "app-holding".toList },
         ⟨[("app".toList, 4), ("app-holding".toList, 3)]⟩, []⟩).2.fs.get
          "app-holding".toList = none) :=
  ⟨C10_moves_overwrite.1 envHappy
      ⟨{ configBucket := none, configKey := none, outputPath := some "app".toList },
       ⟨[("app".toList, 3), ("app-holding".toList, 9)]⟩, []⟩
      "app".toList 3 9 rfl (by decide) (by decide) (by decide) rfl,
   C10_moves_overwrite.2 envHappy
      ⟨{ configBucket := none, configKey := none, originalPath := some "app".toList,
         holdingPath := some "app-holding".toList },
       ⟨[("app".toList, 4), ("app-holding".toList, 3)]⟩, []⟩
      "app".toList "app-holding".toList 3 4 rfl rfl (by decide) (by decide) (by decide)
      (by decide) (by decide) rfl⟩

/-! ## C9: a download failure does not trigger a rollback -/

/-- C9: when the artifact download stream fails after the old app was
staged into holding, the pipeline rejects with the stream error and does
nothing further: the exact trace is pointer-fetch, stage move, stream —
no restore move and no remove — so the old app remains at the holding
path and the original path stays vacated. -/
theorem C9_download_failure_no_rollback (env : Env) (b k : Option JStr) (fs : FS)
    (cfg : Pointer) (op : JStr) (c : Nat)
    (hb : truthy b = true) (hk : truthy k = true)
    (hf : env.fetchResult = some cfg)
    (hop : outputPathFor (jsBasename cfg.key) = op) (hne : op ≠ [])
    (hold : fs.get op = some c)
    (hmv : env.moveOk op (holdingPathFor op) = true)
    (hdl : env.downloadOk = false) :
    (download env (initSys b k fs)).1 = .err .streamError ∧
    (download env (initSys b k fs)).2.fs.get (holdingPathFor op) = some c ∧
    (download env (initSys b k fs)).2.fs.get op = none ∧
    (download env (initSys b k fs)).2.events =
      [.s3GetObject b k, .fsMove op (holdingPathFor op),
       .s3Stream (some cfg.bucket) (some cfg.key)] := by
  have hemp := isEmpty_false_of_ne hne
  have heval : download env (initSys b k fs) =
      (.err .streamError,
       ⟨{ configBucket := b, configKey := k, appBucket := some cfg.bucket,
          appKey := some cfg.key, zipPath := some (jsBasename cfg.key),
          outputPath := some op, originalPath := some op,
          holdingPath := some (holdingPathFor op) },
        (fs.erase op).set (holdingPathFor op) c,
        [.s3GetObject b k, .fsMove op (holdingPathFor op),
         .s3Stream (some cfg.bucket) (some cfg.key)]⟩) := by
    simp [download, initSys, hb, hk, andThen, fetchCurrentVersion, hf, Sys.log, hop,
      moveOldAppIntoHolding, hemp, fspMove, hold, hmv, downloadAppZip, hdl]
  rw [heval]
  refine ⟨rfl, ?_, ?_, rfl⟩
  · exact FS.get_set_self _ _ _
  · rw [FS.get_set_ne _ _ _ _ (holdingPathFor_ne op), FS.get_erase_self]

/-- Environment for the C9 witness: staging succeeds, then the artifact
stream fails. -/
def envDlFail : Env := { envHappy with downloadOk := false }

theorem C9_download_failure_no_rollback_witness :
    (truthy (some "B".toList) = true ∧ truthy (some "K".toList) = true ∧
      envDlFail.fetchResult = some ⟨"b".toList, "releases/foo-bar-deadbeef.zip".toList⟩ ∧
      outputPathFor (jsBasename "releases/foo-bar-deadbeef.zip".toList) = "foo-bar".toList ∧
      "foo-bar".toList ≠ [] ∧
      FS.get ⟨[("foo-bar".toList, 3)]⟩ "foo-bar".toList = some 3 ∧
      envDlFail.moveOk "foo-bar".toList (holdingPathFor "foo-bar".toList) = true ∧
      envDlFail.downloadOk = false) ∧
    ((download envDlFail (initSys (some "B".toList) (some "K".toList)
        ⟨[("foo-bar".toList, 3)]⟩)).1 = .err .streamError ∧
      (download envDlFail (initSys (some "B".toList) (some "K".toList)
        ⟨[("foo-bar".toList, 3)]⟩)).2.fs.get (holdingPathFor "foo-bar".toList) = some 3 ∧
      (download envDlFail (initSys (some "B".toList) (some "K".toList)
        ⟨[("foo-bar".toList, 3)]⟩)).2.fs.get "foo-bar".toList = none ∧
      (download envDlFail (initSys (some "B".toList) (some "K".toList)
        ⟨[("foo-bar".toList, 3)]⟩)).2.events =
        [.s3GetObject (some "B".toList) (some "K".toList),
         .fsMove "foo-bar".toList (holdingPathFor "foo-bar".toList),
         .s3Stream (some "b".toList) (some "releases/foo-bar-deadbeef.zip".toList)]) :=
  ⟨⟨rfl, rfl, rfl, by decide, by decide, by decide, rfl, rfl⟩,
   C9_download_failure_no_rollback envDlFail (some "B".toList) (some "K".toList)
     ⟨[("foo-bar".toList, 3)]⟩ ⟨"b".toList, "releases/foo-bar-deadbeef.zip".toList⟩
     "foo-bar".toList 3 rfl rfl rfl (by decide) (by decide) (by decide) rfl rfl⟩

/-! ## C2: when is the stage step a no-op? -/

/-- C2 counterexample: a first-ever deployment (derived `outputPath =
"foo-bar"` non-empty, but no directory exists at it).  Contrary to the
claim, `stage` is not a no-op: the holding path is recorded, a filesystem
move is attempted, and the whole deployment rejects with the move error
(`fsp.move` of a nonexistent source fails). -/
theorem C2_counterexample :
    (download envHappy (initSys (some "B".toList) (some "K".toList) ⟨[]⟩)).1
        = .err .moveError ∧
    (download envHappy (initSys (some "B".toList) (some "K".toList)
        ⟨[]⟩)).2.st.holdingPath = some (holdingPathFor "foo-bar".toList) ∧
    Event.fsMove "foo-bar".toList (holdingPathFor "foo-bar".toList) ∈
      (download envHappy (initSys (some "B".toList) (some "K".toList) ⟨[]⟩)).2.events := by
  refine ⟨?_, ?_, ?_⟩ <;>
    simp [download, initSys, truthy, andThen, fetchCurrentVersion, envHappy, Sys.log,
      moveOldAppIntoHolding, fspMove, FS.get, lookupPath, outputPathFor, jsBasename,
      jsBasenameExt, zipExt, stripEnd, splitOnChar, joinWith, holdingPathFor]

/-- C2 amended: the stage operation is a no-op exactly when the derived
`outputPath` is unset or the empty string (in which case commit and
rollback are no-ops too, nothing being recorded); with a non-empty
`outputPath` at which no directory exists — a first-ever deployment — the
stage operation records the original and holding paths, attempts the
filesystem move, and fails with the move error. -/
theorem C2_stage_noop_only_when_falsy :
    (∀ (env : Env) (s : Sys),
      (s.st.outputPath = none ∨ s.st.outputPath = some []) →
      moveOldAppIntoHolding env s = (.ok (), s)) ∧
    (∀ (env : Env) (s : Sys), s.st.holdingPath = none →
      removeOldApp env s = (.ok (), s)) ∧
    (∀ (env : Env) (s : Sys),
      (s.st.originalPath = none ∨ s.st.holdingPath = none) →
      restoreOldAppFromHolding env s = (.ok (), s)) ∧
    (∀ (env : Env) (s : Sys) (op : JStr),
      s.st.outputPath = some op → op ≠ [] → s.fs.get op = none →
      (moveOldAppIntoHolding env s).1 = .err .moveError ∧
      (moveOldAppIntoHolding env s).2.st.holdingPath = some (holdingPathFor op) ∧
      (moveOldAppIntoHolding env s).2.st.originalPath = some op ∧
      (moveOldAppIntoHolding env s).2.events = s.events ++ [.fsMove op (holdingPathFor op)]) := by
  refine ⟨?_, ?_, ?_, ?_⟩
  · intro env s h
    rcases h with h | h <;> simp [moveOldAppIntoHolding, h]
  · intro env s h
    simp [removeOldApp, h]
  · intro env s h
    rcases h with h | h
    · simp [restoreOldAppFromHolding, h]
    · cases horig : s.st.originalPath <;> simp [restoreOldAppFromHolding, horig, h]
  · intro env s op hout hne hget
    have hemp := isEmpty_false_of_ne hne
    refine ⟨?_, ?_, ?_, ?_⟩ <;>
      simp [moveOldAppIntoHolding, hout, hemp, fspMove, Sys.log, hget]

theorem C2_stage_noop_only_when_falsy_witness :
    (moveOldAppIntoHolding envHappy
        ⟨{ configBucket := none, configKey := none, outputPath := some [] }, ⟨[]⟩, []⟩
      = (.ok (), ⟨{ configBucket := none, configKey := none, outputPath := some [] },
          ⟨[]⟩, []⟩)) ∧
    (removeOldApp envHappy
        ⟨{ configBucket := none, configKey := none }, ⟨[]⟩, []⟩
      = (.ok (), ⟨{ configBucket := none, configKey := none }, ⟨[]⟩, []⟩)) ∧
    (restoreOldAppFromHolding envHappy
        ⟨{ configBucket := none, configKey := none }, ⟨[]⟩, []⟩
      = (.ok (), ⟨{ configBucket := none, configKey := none }, ⟨[]⟩, []⟩)) ∧
    ((moveOldAppIntoHolding envHappy
        ⟨{ configBucket := none, configKey := none, outputPath := some "app".toList },
         ⟨[]⟩, []⟩).1 = .err .moveError ∧
      (moveOldAppIntoHolding envHappy
        ⟨{ configBucket := none, configKey := none, outputPath := some "app".toList },
         ⟨[]⟩, []⟩).2.st.holdingPath = some (holdingPathFor "app".toList) ∧
      (moveOldAppIntoHolding envHappy
        ⟨{ configBucket := none, configKey := none, outputPath := some "app".toList },
         ⟨[]⟩, []⟩).2.st.originalPath = some "app".toList ∧
      (moveOldAppIntoHolding envHappy
        ⟨{ configBucket := none, configKey := none, outputPath := some "app".toList },
         ⟨[]⟩, []⟩).2.events = [] ++ [.fsMove "app".toList (holdingPathFor "app".toList)]) :=
  ⟨C2_stage_noop_only_when_falsy.1 envHappy
      ⟨{ configBucket := none, configKey := none, outputPath := some [] }, ⟨[]⟩, []⟩
      (Or.inr rfl),
   C2_stage_noop_only_when_falsy.2.1 envHappy
      ⟨{ configBucket := none, configKey := none }, ⟨[]⟩, []⟩ rfl,
   C2_stage_noop_only_when_falsy.2.2.1 envHappy
      ⟨{ configBucket := none, configKey := none }, ⟨[]⟩, []⟩ (Or.inl rfl),
   C2_stage_noop_only_when_falsy.2.2.2 envHappy
      ⟨{ configBucket := none, configKey := none, outputPath := some "app".toList }, ⟨[]⟩, []⟩
      "app".toList rfl (by decide) rfl⟩

/-! ## C6: artifact names without a hyphen -/

theorem splitOnChar_not_mem {c : Char} {l : JStr} (h : c ∉ l) : splitOnChar c l = [l] := by
  induction l with
  | nil => rfl
  | cons x xs ih =>
    have hx : ¬ x = c := fun he => h (he ▸ List.mem_cons_self x xs)
    have hxs : c ∉ xs := fun hm => h (List.mem_cons_of_mem x hm)
    simp [splitOnChar, hx, ih hxs]

/-- When the stem has no `-`, the derived output path is the empty
string. -/
theorem outputPathFor_of_no_dash (zipPath : JStr)
    (h : '-' ∉ jsBasenameExt zipPath zipExt) : outputPathFor zipPath = [] := by
  rw [outputPathFor, splitOnChar_not_mem h]
  rfl

/-- Environment whose pointer key has no hyphen in its stem. -/
def envNoDash : Env := { envHappy with fetchResult := some ⟨"b".toList, "releases/app.zip".toList⟩ }

/-- C6 counterexample: with artifact key `releases/app.zip` (stem `app`,
no `-`), the deployment does **not** fail with a pointer-parse error:
the pipeline runs the `unzip` command and resolves successfully with the
empty output path.  (No `PointerParseError` exists anywhere in the
code.) -/
theorem C6_counterexample :
    (download envNoDash (initSys (some "B".toList) (some "K".toList) ⟨[]⟩)).1
        = .ok (some []) ∧
    Event.execCmd (unzipCmd (some "app.zip".toList)) ∈
      (download envNoDash (initSys (some "B".toList) (some "K".toList) ⟨[]⟩)).2.events := by
  constructor <;>
    simp [download, initSys, truthy, andThen, fetchCurrentVersion, envNoDash, envHappy, Sys.log,
      moveOldAppIntoHolding, fspMove, downloadAppZip, unzipApp, unzipFrom, maxNumUnzipAttempts,
      applyUnzipEffect, removeOldApp, installNPMDependencies, outputPathFor, jsBasename,
      jsBasenameExt, zipExt, stripEnd, splitOnChar, joinWith, unzipCmd, jsStr, npmCmd]

/-- C6 amended: for every artifact file name whose stem contains no `-`,
the derived output path is the empty string; the deployment then does not
fail on that account — staging is skipped (no move, no holding path
recorded) and the pipeline proceeds to download and unpack, resolving
with the empty output path when the external steps succeed. -/
theorem C6_no_dash_empty_path_proceeds (env : Env) (b k : Option JStr) (fs : FS)
    (cfg : Pointer)
    (hb : truthy b = true) (hk : truthy k = true)
    (hf : env.fetchResult = some cfg)
    (hstem : '-' ∉ jsBasenameExt (jsBasename cfg.key) zipExt)
    (hdl : env.downloadOk = true) (hz : env.unzipOk 1 = true) :
    (download env (initSys b k fs)).1 = .ok (some []) ∧
    (download env (initSys b k fs)).2.st.outputPath = some [] ∧
    (download env (initSys b k fs)).2.st.holdingPath = none ∧
    (download env (initSys b k fs)).2.fs = fs ∧
    (download env (initSys b k fs)).2.events =
      [.s3GetObject b k, .s3Stream (some cfg.bucket) (some cfg.key),
       .execCmd (unzipCmd (some (jsBasename cfg.key))), .execCmd (npmCmd (some []))] := by
  have hop : outputPathFor (jsBasename cfg.key) = [] := outputPathFor_of_no_dash _ hstem
  refine ⟨?_, ?_, ?_, ?_, ?_⟩ <;>
    simp [download, initSys, hb, hk, andThen, fetchCurrentVersion, hf, Sys.log, hop,
      moveOldAppIntoHolding, downloadAppZip, hdl, unzipApp, unzipFrom, maxNumUnzipAttempts,
      hz, applyUnzipEffect, removeOldApp, installNPMDependencies]

theorem C6_no_dash_empty_path_proceeds_witness :
    (truthy (some "B".toList) = true ∧ truthy (some "K".toList) = true ∧
      envNoDash.fetchResult = some ⟨"b".toList, "releases/app.zip".toList⟩ ∧
      '-' ∉ jsBasenameExt (jsBasename "releases/app.zip".toList) zipExt ∧
      envNoDash.downloadOk = true ∧ envNoDash.unzipOk 1 = true) ∧
    ((download envNoDash (initSys (some "B".toList) (some "K".toList) ⟨[]⟩)).1
        = .ok (some []) ∧
      (download envNoDash (initSys (some "B".toList) (some "K".toList)
          ⟨[]⟩)).2.st.outputPath = some [] ∧
      (download envNoDash (initSys (some "B".toList) (some "K".toList)
          ⟨[]⟩)).2.st.holdingPath = none ∧
      (download envNoDash (initSys (some "B".toList) (some "K".toList) ⟨[]⟩)).2.fs = ⟨[]⟩ ∧
      (download envNoDash (initSys (some "B".toList) (some "K".toList) ⟨[]⟩)).2.events =
        [.s3GetObject (some "B".toList) (some "K".toList),
         .s3Stream (some "b".toList) (some "releases/app.zip".toList),
         .execCmd (unzipCmd (some (jsBasename "releases/app.zip".toList))),
         .execCmd (npmCmd (some []))]) :=
  ⟨⟨rfl, rfl, rfl, by decide, rfl, rfl⟩,
   C6_no_dash_empty_path_proceeds envNoDash (some "B".toList) (some "K".toList) ⟨[]⟩
     ⟨"b".toList, "releases/app.zip".toList⟩ rfl rfl rfl (by decide) rfl rfl⟩

/-! ## C3: failure of the commit step -/

theorem holdingPathFor_ne_nil (op : JStr) : holdingPathFor op ≠ [] := by
  simp [holdingPathFor]

/-- Environment in which everything succeeds except the final
`fsp.remove` of the holding directory. -/
def envRmFail : Env := { envHappy with removeOk := false }

/-- C3 counterexample: `removeOldApp` has no `.catch`, so when the
`fsp.remove` of the holding directory rejects, the whole `download`
promise rejects with the removal error — the pipeline does **not**
report success or return the output path. -/
theorem C3_counterexample :
    (download envRmFail (initSys (some "B".toList) (some "K".toList)
        ⟨[("foo-bar".toList, 3)]⟩)).1 = .err .removeError := by
  simp [download, initSys, truthy, andThen, fetchCurrentVersion, envRmFail, envHappy, Sys.log,
    moveOldAppIntoHolding, fspMove, FS.get, FS.set, FS.erase, lookupPath, removePath,
    downloadAppZip, unzipApp, unzipFrom, maxNumUnzipAttempts, applyUnzipEffect, removeOldApp,
    outputPathFor, jsBasename, jsBasenameExt, zipExt, stripEnd, splitOnChar, joinWith,
    holdingPathFor]

/-- C3 amended: a failure of the commit step (removing the holding
directory) is **fatal**: the pipeline rejects with the removal error
instead of reporting success.  The newly unpacked app at `outputPath` is
nevertheless not removed or altered, and the old app remains in the
holding directory. -/
theorem C3_commit_failure_is_fatal (env : Env) (b k : Option JStr) (fs : FS)
    (cfg : Pointer) (op : JStr) (c : Nat)
    (hb : truthy b = true) (hk : truthy k = true)
    (hf : env.fetchResult = some cfg)
    (hop : outputPathFor (jsBasename cfg.key) = op) (hne : op ≠ [])
    (hold : fs.get op = some c)
    (hmv : env.moveOk op (holdingPathFor op) = true)
    (hdl : env.downloadOk = true) (hz : env.unzipOk 1 = true)
    (hrm : env.removeOk = false) :
    (download env (initSys b k fs)).1 = .err .removeError ∧
    (download env (initSys b k fs)).2.fs.get op = some env.newAppContent ∧
    (download env (initSys b k fs)).2.fs.get (holdingPathFor op) = some c ∧
    (download env (initSys b k fs)).2.events =
      [.s3GetObject b k, .fsMove op (holdingPathFor op),
       .s3Stream (some cfg.bucket) (some cfg.key),
       .execCmd (unzipCmd (some (jsBasename cfg.key))),
       .fsRemove (holdingPathFor op)] := by
  have hemp := isEmpty_false_of_ne hne
  have hemph := isEmpty_false_of_ne (holdingPathFor_ne_nil op)
  refine ⟨?_, ?_, ?_, ?_⟩ <;>
    simp [download, initSys, hb, hk, andThen, fetchCurrentVersion, hf, Sys.log, hop,
      moveOldAppIntoHolding, hemp, fspMove, hold, hmv, downloadAppZip, hdl,
      unzipApp, unzipFrom, maxNumUnzipAttempts, hz, applyUnzipEffect, removeOldApp, hemph, hrm,
      FS.get_set_self, FS.get_set_ne _ _ _ _ (ne_holdingPathFor op)]

theorem C3_commit_failure_is_fatal_witness :
    (truthy (some "B".toList) = true ∧ truthy (some "K".toList) = true ∧
      envRmFail.fetchResult = some ⟨"b".toList, "releases/foo-bar-deadbeef.zip".toList⟩ ∧
      outputPathFor (jsBasename "releases/foo-bar-deadbeef.zip".toList) = "foo-bar".toList ∧
      "foo-bar".toList ≠ [] ∧
      FS.get ⟨[("foo-bar".toList, 3)]⟩ "foo-bar".toList = some 3 ∧
      envRmFail.moveOk "foo-bar".toList (holdingPathFor "foo-bar".toList) = true ∧
      envRmFail.downloadOk = true ∧ envRmFail.unzipOk 1 = true ∧
      envRmFail.removeOk = false) ∧
    ((download envRmFail (initSys (some "B".toList) (some "K".toList)
        ⟨[("foo-bar".toList, 3)]⟩)).1 = .err .removeError ∧
      (download envRmFail (initSys (some "B".toList) (some "K".toList)
        ⟨[("foo-bar".toList, 3)]⟩)).2.fs.get "foo-bar".toList
          = some envRmFail.newAppContent ∧
      (download envRmFail (initSys (some "B".toList) (some "K".toList)
        ⟨[("foo-bar".toList, 3)]⟩)).2.fs.get (holdingPathFor "foo-bar".toList) = some 3 ∧
      (download envRmFail (initSys (some "B".toList) (some "K".toList)
        ⟨[("foo-bar".toList, 3)]⟩)).2.events =
        [.s3GetObject (some "B".toList) (some "K".toList),
         .fsMove "foo-bar".toList (holdingPathFor "foo-bar".toList),
         .s3Stream (some "b".toList) (some "releases/foo-bar-deadbeef.zip".toList),
         .execCmd (unzipCmd (some (jsBasename "releases/foo-bar-deadbeef.zip".toList))),
         .fsRemove (holdingPathFor "foo-bar".toList)]) :=
  ⟨⟨rfl, rfl, rfl, by decide, by decide, by decide, rfl, rfl, rfl, rfl⟩,
   C3_commit_failure_is_fatal envRmFail (some "B".toList) (some "K".toList)
     ⟨[("foo-bar".toList, 3)]⟩ ⟨"b".toList, "releases/foo-bar-deadbeef.zip".toList⟩
     "foo-bar".toList 3 rfl rfl rfl (by decide) (by decide) (by decide) rfl rfl rfl rfl⟩

/-! ## C1: unzip retry budget and rollback on exhaustion -/

/-- Is an event a shell-command execution? -/
def isExecEvent : Event → Bool
  | .execCmd _ => true
  | _ => false

/-- Number of shell commands run so far. -/
def execCount (l : List Event) : Nat := (l.filter isExecEvent).length

theorem execCount_append (a b : List Event) :
    execCount (a ++ b) = execCount a + execCount b := by
  simp [execCount, List.filter_append]

theorem fspMove_events (env : Env) (src dst : JStr) (s : Sys) :
    (fspMove env src dst s).2.events = s.events ++ [.fsMove src dst] := by
  simp only [fspMove, Sys.log]
  cases FS.get s.fs src with
  | none => rfl
  | some c => by_cases hm : env.moveOk src dst <;> simp [hm]

theorem restore_execCount (env : Env) (s : Sys) :
    execCount (restoreOldAppFromHolding env s).2.events = execCount s.events := by
  simp only [restoreOldAppFromHolding]
  split
  · split
    · rfl
    · rw [fspMove_events, execCount_append]
      simp [execCount, isExecEvent]
  · rfl
  · rfl

theorem applyUnzipEffect_events (env : Env) (s : Sys) :
    (applyUnzipEffect env s).events = s.events := by
  simp only [applyUnzipEffect]
  split
  · rfl
  · split <;> rfl

/-- Across one whole `unzipFrom` run starting at attempt `n`, at most
`maxNumUnzipAttempts + 1 - n` further shell commands are executed. -/
theorem unzipFrom_execCount_le (env : Env) :
    ∀ (k n : Nat) (s : Sys), maxNumUnzipAttempts + 1 - n ≤ k →
      execCount (unzipFrom env n s).2.events ≤ execCount s.events + k := by
  intro k
  induction k with
  | zero =>
    intro n s hk
    have hn : n > maxNumUnzipAttempts := by omega
    unfold unzipFrom
    rw [dif_pos hn]
    have hres := restore_execCount env s
    rcases hr : restoreOldAppFromHolding env s with ⟨o, s'⟩
    rw [hr] at hres
    cases o <;> simp [hres]
  | succ k ih =>
    intro n s hk
    by_cases hn : n > maxNumUnzipAttempts
    · unfold unzipFrom
      rw [dif_pos hn]
      have hres := restore_execCount env s
      rcases hr : restoreOldAppFromHolding env s with ⟨o, s'⟩
      rw [hr] at hres
      cases o <;> simp [hres]
    · unfold unzipFrom
      rw [dif_neg hn]
      have h1 : execCount (s.log (.execCmd (unzipCmd s.st.zipPath))).events
          = execCount s.events + 1 := by
        simp [Sys.log, execCount_append, execCount, isExecEvent]
      by_cases hz : env.unzipOk n = true
      · simp only [hz, if_true, applyUnzipEffect_events]
        omega
      · simp only [Bool.not_eq_true] at hz
        simp only [hz, Bool.false_eq_true, if_false]
        have := ih (n + 1) (s.log (.execCmd (unzipCmd s.st.zipPath))) (by omega)
        omega

theorem unzipFrom_fail_step (env : Env) (n : Nat) (s : Sys)
    (hn : ¬ n > maxNumUnzipAttempts) (hz : env.unzipOk n = false) :
    unzipFrom env n s = unzipFrom env (n + 1) (s.log (.execCmd (unzipCmd s.st.zipPath))) := by
  conv_lhs => unfold unzipFrom
  rw [dif_neg hn]
  simp [hz]

theorem unzipFrom_exhausted (env : Env) (n : Nat) (s : Sys)
    (hn : n > maxNumUnzipAttempts) :
    unzipFrom env n s =
      match restoreOldAppFromHolding env s with
      | (.ok _, s') => (.err .unzipLimitError, s')
      | (.err _, s') => (.pending, s')
      | (.pending, s') => (.pending, s') := by
  unfold unzipFrom
  rw [dif_pos hn]

/-- C1: `unzipApp` runs the extraction command at most 5 times, whatever
happens; and when all 5 consecutive attempts fail (here with a staged old
app in holding and a restorable filesystem), exactly 5 extraction
commands are run, the old app is moved from the holding path back to the
original path, the operation rejects with the unzip-limit error, and no
holding directory remains. -/
theorem C1_unzip_exhaustion_restores_and_fails (env : Env) (s : Sys) (op : JStr) (c : Nat)
    (horig : s.st.originalPath = some op)
    (hhold : s.st.holdingPath = some (holdingPathFor op))
    (hne : op ≠ [])
    (hsrc : s.fs.get (holdingPathFor op) = some c)
    (hmv : env.moveOk (holdingPathFor op) op = true)
    (hfail : ∀ i, i ≤ maxNumUnzipAttempts → env.unzipOk i = false) :
    (∀ (env' : Env) (s' : Sys) (a : Option Nat),
      execCount (unzipApp env' a s').2.events ≤ execCount s'.events + maxNumUnzipAttempts) ∧
    (unzipApp env none s).1 = .err .unzipLimitError ∧
    execCount (unzipApp env none s).2.events = execCount s.events + maxNumUnzipAttempts ∧
    (unzipApp env none s).2.fs.get op = some c ∧
    (unzipApp env none s).2.fs.get (holdingPathFor op) = none := by
  have hgen : ∀ (env' : Env) (s' : Sys) (a : Option Nat),
      execCount (unzipApp env' a s').2.events ≤ execCount s'.events + maxNumUnzipAttempts := by
    intro env' s' a
    rw [unzipApp.eq_def]
    apply unzipFrom_execCount_le
    cases a with
    | none => decide
    | some k =>
      by_cases hk : k = 0
      · simp [hk, maxNumUnzipAttempts]
      · simp [hk, maxNumUnzipAttempts]
        omega
  have hemp := isEmpty_false_of_ne hne
  have hemph := isEmpty_false_of_ne (holdingPathFor_ne_nil op)
  have heval : unzipApp env none s
      = (.err .unzipLimitError,
         ⟨s.st, (s.fs.erase (holdingPathFor op)).set op c,
          s.events ++ [.execCmd (unzipCmd s.st.zipPath), .execCmd (unzipCmd s.st.zipPath),
            .execCmd (unzipCmd s.st.zipPath), .execCmd (unzipCmd s.st.zipPath),
            .execCmd (unzipCmd s.st.zipPath), .fsMove (holdingPathFor op) op]⟩) := by
    show unzipFrom env 1 s = _
    rw [unzipFrom_fail_step env 1 s (by decide) (hfail 1 (by decide)),
        unzipFrom_fail_step env 2 _ (by decide) (hfail 2 (by decide)),
        unzipFrom_fail_step env 3 _ (by decide) (hfail 3 (by decide)),
        unzipFrom_fail_step env 4 _ (by decide) (hfail 4 (by decide)),
        unzipFrom_fail_step env 5 _ (by decide) (hfail 5 (by decide)),
        unzipFrom_exhausted env 6 _ (by decide)]
    simp [restoreOldAppFromHolding, Sys.log, horig, hhold, hemp, hemph, fspMove, hsrc, hmv]
  refine ⟨hgen, ?_, ?_, ?_, ?_⟩
  · rw [heval]
  · rw [heval]
    simp [execCount_append, execCount, isExecEvent, maxNumUnzipAttempts]
  · rw [heval]
    exact FS.get_set_self _ _ _
  · rw [heval]
    simp only
    rw [FS.get_set_ne _ _ _ _ (ne_holdingPathFor op), FS.get_erase_self]

/-- Environment in which every unzip attempt fails (restore still
possible). -/
def envUnzipFail : Env := { envHappy with unzipOk := fun _ => false }

/-- A staged state: the old app (content 3) sits in the holding
directory. -/
def c1Sys : Sys :=
  ⟨{ configBucket := none, configKey := none, zipPath := some "app-abc.zip".toList,
     outputPath := some "app".toList, originalPath := some "app".toList,
     holdingPath := some "app-holding".toList },
   ⟨[("app-holding".toList, 3)]⟩, []⟩

theorem C1_unzip_exhaustion_restores_and_fails_witness :
    (c1Sys.st.originalPath = some "app".toList ∧
      c1Sys.st.holdingPath = some (holdingPathFor "app".toList) ∧
      "app".toList ≠ [] ∧
      c1Sys.fs.get (holdingPathFor "app".toList) = some 3 ∧
      envUnzipFail.moveOk (holdingPathFor "app".toList) "app".toList = true ∧
      (∀ i, i ≤ maxNumUnzipAttempts → envUnzipFail.unzipOk i = false)) ∧
    ((∀ (env' : Env) (s' : Sys) (a : Option Nat),
        execCount (unzipApp env' a s').2.events ≤ execCount s'.events + maxNumUnzipAttempts) ∧
      (unzipApp envUnzipFail none c1Sys).1 = .err .unzipLimitError ∧
      execCount (unzipApp envUnzipFail none c1Sys).2.events
        = execCount c1Sys.events + maxNumUnzipAttempts ∧
      (unzipApp envUnzipFail none c1Sys).2.fs.get "app".toList = some 3 ∧
      (unzipApp envUnzipFail none c1Sys).2.fs.get (holdingPathFor "app".toList) = none) :=
  ⟨⟨rfl, by decide, by decide, by decide, rfl, fun _ _ => rfl⟩,
   C1_unzip_exhaustion_restores_and_fails envUnzipFail c1Sys "app".toList 3
     rfl (by decide) (by decide) (by decide) rfl (fun _ _ => rfl)⟩

/-! ## C4: what happens when the rollback itself fails -/

/-- Environment for C4: the pointer resolves, the download succeeds,
every unzip attempt fails, and moves succeed only from `foo-bar` (so the
stage move works but the restore move from `foo-bar-holding` rejects). -/
def envC4 : Env := {
  fetchResult := some ⟨"b".toList, "releases/foo-bar-deadbeef.zip".toList⟩
  downloadOk := true
  unzipOk := fun _ => false
  newAppContent := 7
  moveOk := fun src _ => src == "foo-bar".toList
  removeOk := true }

/-- C4, observed divergence: when all 5 unzip attempts fail **and** the
restore move itself rejects, the rejection of `unzipApp` is attached only
to the fulfilled path of the restore promise (src/index.js:130-134), so
the promise returned by `unzipApp` — and with it the whole `download`
promise — never settles: the unpack-exhaustion error is never reported to
the caller.  The restore move is attempted (its event is in the trace)
before the operation stalls. -/
theorem C4_rollback_failure_never_reports :
    (download envC4 (initSys (some "B".toList) (some "K".toList)
        ⟨[("foo-bar".toList, 3)]⟩)).1 = .pending ∧
    Event.fsMove (holdingPathFor "foo-bar".toList) "foo-bar".toList ∈
      (download envC4 (initSys (some "B".toList) (some "K".toList)
        ⟨[("foo-bar".toList, 3)]⟩)).2.events := by
  constructor <;>
    simp [download, initSys, truthy, andThen, fetchCurrentVersion, envC4, Sys.log,
      moveOldAppIntoHolding, fspMove, FS.get, FS.set, FS.erase, lookupPath, removePath,
      downloadAppZip, unzipApp, unzipFrom, maxNumUnzipAttempts, applyUnzipEffect,
      restoreOldAppFromHolding, removeOldApp, installNPMDependencies,
      outputPathFor, jsBasename, jsBasenameExt, zipExt, stripEnd, splitOnChar, joinWith,
      holdingPathFor, unzipCmd, jsStr]

/-! ## C8: the staging-state invariant -/

/-- Is an event an `fsp.remove` call (a commit of the holding dir)? -/
def isRemoveEvent : Event → Bool
  | .fsRemove _ => true
  | _ => false

/-- Is an event a restore-shaped move, i.e. a move whose source is the
holding sibling of its destination (the rollback move)? -/
def isRestoreMove : Event → Bool
  | .fsMove src dst => src == holdingPathFor dst
  | _ => false

/-- Number of commit-removes performed so far. -/
def removeCount (l : List Event) : Nat := (l.filter isRemoveEvent).length

/-- Number of rollback-restores performed so far. -/
def restoreCount (l : List Event) : Nat := (l.filter isRestoreMove).length

theorem removeCount_append (a b : List Event) :
    removeCount (a ++ b) = removeCount a + removeCount b := by
  simp [removeCount, List.filter_append]

theorem restoreCount_append (a b : List Event) :
    restoreCount (a ++ b) = restoreCount a + restoreCount b := by
  simp [restoreCount, List.filter_append]

/-- The stage move `op → op-holding` is never restore-shaped (its source
is 16 characters shorter than the holding sibling of its destination). -/
theorem isRestoreMove_stage (op : JStr) :
    isRestoreMove (.fsMove op (holdingPathFor op)) = false := by
  simp only [isRestoreMove]
  rw [beq_eq_false_iff_ne]
  intro h
  have := congrArg List.length h
  simp [holdingPathFor] at this

/-- The holding path the code's stage step records for a given
`outputPath` field: none when `outputPath` is falsy, otherwise
`outputPath + "-holding"`. -/
def jsHoldingOf : Option JStr → Option JStr
  | none => none
  | some op => if op.isEmpty then none else some (holdingPathFor op)

/-- Invariant carried through the pipeline: the recorded holding path is
determined by the recorded output path, and at most `a` commit-removes
and `b` rollback-restores have been performed. -/
def StageInv (a b : Nat) (s : Sys) : Prop :=
  s.st.holdingPath = jsHoldingOf s.st.outputPath ∧
  removeCount s.events ≤ a ∧ restoreCount s.events ≤ b

theorem StageInv_mono {a b a' b' : Nat} {s : Sys} (h1 : a ≤ a') (h2 : b ≤ b')
    (h : StageInv a b s) : StageInv a' b' s :=
  ⟨h.1, le_trans h.2.1 h1, le_trans h.2.2 h2⟩

theorem fspMove_st (env : Env) (src dst : JStr) (s : Sys) :
    (fspMove env src dst s).2.st = s.st := by
  simp only [fspMove, Sys.log]
  cases FS.get s.fs src with
  | none => rfl
  | some c => by_cases hm : env.moveOk src dst <;> simp [hm]

theorem restore_st (env : Env) (s : Sys) :
    (restoreOldAppFromHolding env s).2.st = s.st := by
  simp only [restoreOldAppFromHolding]
  split
  · split
    · rfl
    · exact fspMove_st env _ _ s
  · rfl
  · rfl

theorem restoreCount_single_le (e : Event) : restoreCount [e] ≤ 1 := by
  simpa [restoreCount] using List.length_filter_le isRestoreMove [e]

theorem restore_counts (env : Env) (s : Sys) :
    removeCount (restoreOldAppFromHolding env s).2.events = removeCount s.events ∧
    restoreCount (restoreOldAppFromHolding env s).2.events ≤ restoreCount s.events + 1 := by
  simp only [restoreOldAppFromHolding]
  split
  · split
    · exact ⟨rfl, Nat.le_succ _⟩
    · rw [fspMove_events, removeCount_append, restoreCount_append]
      constructor
      · simp [removeCount, isRemoveEvent]
      · exact Nat.add_le_add_left (restoreCount_single_le _) _
  · exact ⟨rfl, Nat.le_succ _⟩
  · exact ⟨rfl, Nat.le_succ _⟩

theorem applyUnzipEffect_st (env : Env) (s : Sys) : (applyUnzipEffect env s).st = s.st := by
  simp only [applyUnzipEffect]
  split
  · rfl
  · split <;> rfl

/-- `unzipFrom` never touches the instance fields, performs no
commit-remove, and performs at most one rollback-restore. -/
theorem unzipFrom_st_counts (env : Env) :
    ∀ (k n : Nat) (s : Sys), maxNumUnzipAttempts + 1 - n ≤ k →
      (unzipFrom env n s).2.st = s.st ∧
      removeCount (unzipFrom env n s).2.events = removeCount s.events ∧
      restoreCount (unzipFrom env n s).2.events ≤ restoreCount s.events + 1 := by
  intro k
  induction k with
  | zero =>
    intro n s hk
    have hn : n > maxNumUnzipAttempts := by omega
    unfold unzipFrom
    rw [dif_pos hn]
    have hst := restore_st env s
    have hct := restore_counts env s
    rcases hr : restoreOldAppFromHolding env s with ⟨o, s'⟩
    rw [hr] at hst hct
    cases o <;> exact ⟨hst, hct.1, hct.2⟩
  | succ k ih =>
    intro n s hk
    by_cases hn : n > maxNumUnzipAttempts
    · unfold unzipFrom
      rw [dif_pos hn]
      have hst := restore_st env s
      have hct := restore_counts env s
      rcases hr : restoreOldAppFromHolding env s with ⟨o, s'⟩
      rw [hr] at hst hct
      cases o <;> exact ⟨hst, hct.1, hct.2⟩
    · unfold unzipFrom
      rw [dif_neg hn]
      have hlogst : (s.log (.execCmd (unzipCmd s.st.zipPath))).st = s.st := rfl
      have hlogrm : removeCount (s.log (.execCmd (unzipCmd s.st.zipPath))).events
          = removeCount s.events := by
        simp [Sys.log, removeCount_append, removeCount, isRemoveEvent]
      have hlogrs : restoreCount (s.log (.execCmd (unzipCmd s.st.zipPath))).events
          = restoreCount s.events := by
        simp [Sys.log, restoreCount_append, restoreCount, isRestoreMove]
      by_cases hz : env.unzipOk n = true
      · simp only [hz, if_true]
        refine ⟨?_, ?_, ?_⟩
        · rw [applyUnzipEffect_st, hlogst]
        · rw [applyUnzipEffect_events, hlogrm]
        · rw [applyUnzipEffect_events, hlogrs]
          omega
      · simp only [Bool.not_eq_true] at hz
        simp only [hz, Bool.false_eq_true, if_false]
        have := ih (n + 1) (s.log (.execCmd (unzipCmd s.st.zipPath))) (by omega)
        rw [hlogst, hlogrm, hlogrs] at this
        exact this

theorem unzipApp_st_counts (env : Env) (a : Option Nat) (s : Sys) :
    (unzipApp env a s).2.st = s.st ∧
    removeCount (unzipApp env a s).2.events = removeCount s.events ∧
    restoreCount (unzipApp env a s).2.events ≤ restoreCount s.events + 1 := by
  rw [unzipApp.eq_def]
  exact unzipFrom_st_counts env (maxNumUnzipAttempts + 1) _ s (by omega)

theorem downloadAppZip_st_events (env : Env) (s : Sys) :
    (downloadAppZip env s).2.st = s.st ∧
    (downloadAppZip env s).2.events = s.events ++ [.s3Stream s.st.appBucket s.st.appKey] := by
  simp only [downloadAppZip, Sys.log]
  split <;> exact ⟨rfl, rfl⟩

theorem removeOldApp_st (env : Env) (s : Sys) : (removeOldApp env s).2.st = s.st := by
  simp only [removeOldApp, Sys.log]
  split
  · rfl
  · split
    · rfl
    · split <;> rfl

theorem removeCount_single_le (e : Event) : removeCount [e] ≤ 1 := by
  simpa [removeCount] using List.length_filter_le isRemoveEvent [e]

theorem removeOldApp_counts (env : Env) (s : Sys) :
    removeCount (removeOldApp env s).2.events ≤ removeCount s.events + 1 ∧
    restoreCount (removeOldApp env s).2.events = restoreCount s.events := by
  simp only [removeOldApp, Sys.log]
  split
  · exact ⟨Nat.le_succ _, rfl⟩
  · split
    · exact ⟨Nat.le_succ _, rfl⟩
    · split <;>
      · constructor
        · rw [removeCount_append]
          exact Nat.add_le_add_left (removeCount_single_le _) _
        · rw [restoreCount_append]
          simp [restoreCount, isRestoreMove]

theorem installNPMDependencies_st_events (env : Env) (s : Sys) :
    (installNPMDependencies env s).2.st = s.st ∧
    (installNPMDependencies env s).2.events = s.events ++ [.execCmd (npmCmd s.st.outputPath)] :=
  ⟨rfl, rfl⟩

theorem StageInv_dlZip (env : Env) (a b : Nat) (s : Sys) (h : StageInv a b s) :
    StageInv a b (downloadAppZip env s).2 := by
  obtain ⟨hst, hev⟩ := downloadAppZip_st_events env s
  obtain ⟨hrel, hrm, hrs⟩ := h
  refine ⟨by rw [hst]; exact hrel, ?_, ?_⟩
  · rw [hev, removeCount_append]
    have h0 : removeCount [Event.s3Stream s.st.appBucket s.st.appKey] = 0 := by
      simp [removeCount, isRemoveEvent]
    omega
  · rw [hev, restoreCount_append]
    have h0 : restoreCount [Event.s3Stream s.st.appBucket s.st.appKey] = 0 := by
      simp [restoreCount, isRestoreMove]
    omega

theorem StageInv_unzip (env : Env) (a b : Nat) (s : Sys) (h : StageInv a b s) :
    StageInv a (b + 1) (unzipApp env none s).2 := by
  obtain ⟨hst, hrm, hrs⟩ := unzipApp_st_counts env none s
  obtain ⟨hrel, hrm0, hrs0⟩ := h
  exact ⟨by rw [hst]; exact hrel, by omega, by omega⟩

theorem StageInv_remove (env : Env) (a b : Nat) (s : Sys) (h : StageInv a b s) :
    StageInv (a + 1) b (removeOldApp env s).2 := by
  have hst := removeOldApp_st env s
  obtain ⟨hrm, hrs⟩ := removeOldApp_counts env s
  obtain ⟨hrel, hrm0, hrs0⟩ := h
  exact ⟨by rw [hst]; exact hrel, by omega, by omega⟩

theorem StageInv_install (env : Env) (a b : Nat) (s : Sys) (h : StageInv a b s) :
    StageInv a b (installNPMDependencies env s).2 := by
  obtain ⟨hst, hev⟩ := installNPMDependencies_st_events env s
  obtain ⟨hrel, hrm, hrs⟩ := h
  refine ⟨by rw [hst]; exact hrel, ?_, ?_⟩
  · rw [hev, removeCount_append]
    have h0 : removeCount [Event.execCmd (npmCmd s.st.outputPath)] = 0 := by
      simp [removeCount, isRemoveEvent]
    omega
  · rw [hev, restoreCount_append]
    have h0 : restoreCount [Event.execCmd (npmCmd s.st.outputPath)] = 0 := by
      simp [restoreCount, isRestoreMove]
    omega

/-- Case analysis for `andThen`: the continuation runs only on the
fulfilled path. -/
theorem andThen_inv2 {α : Type} (Q : Sys → Prop) (r : Outcome Unit × Sys)
    (f : Sys → Outcome α × Sys)
    (herr : ∀ e, r.1 = .err e → Q r.2)
    (hpend : r.1 = .pending → Q r.2)
    (hok : r.1 = .ok () → Q (f r.2).2) :
    Q (andThen r f).2 := by
  rcases r with ⟨o, t⟩
  cases o with
  | ok a =>
    cases a
    exact hok rfl
  | err e => exact herr e rfl
  | pending => exact hpend rfl

/-- Once the stage step has finished (invariant established, nothing yet
committed or rolled back), the rest of the pipeline keeps the record
intact and performs at most one commit-remove and at most one
rollback-restore. -/
theorem tail_inv (env : Env) (s : Sys) (h : StageInv 0 0 s) :
    StageInv 1 1 (andThen (downloadAppZip env s) (fun s =>
      andThen (unzipApp env none s) (fun s =>
      andThen (removeOldApp env s) (fun s =>
      andThen (installNPMDependencies env s) (fun s =>
        (Outcome.ok s.st.outputPath, s)))))).2 := by
  have h1 : StageInv 0 0 (downloadAppZip env s).2 := StageInv_dlZip env 0 0 s h
  apply andThen_inv2 (StageInv 1 1)
  · intro _ _
    exact StageInv_mono (by omega) (by omega) h1
  · intro _
    exact StageInv_mono (by omega) (by omega) h1
  · intro _
    have h2 : StageInv 0 1 (unzipApp env none (downloadAppZip env s).2).2 :=
      StageInv_unzip env 0 0 _ h1
    apply andThen_inv2 (StageInv 1 1)
    · intro _ _
      exact StageInv_mono (by omega) (by omega) h2
    · intro _
      exact StageInv_mono (by omega) (by omega) h2
    · intro _
      have h3 : StageInv 1 1 (removeOldApp env (unzipApp env none
          (downloadAppZip env s).2).2).2 := StageInv_remove env 0 1 _ h2
      apply andThen_inv2 (StageInv 1 1)
      · intro _ _
        exact h3
      · intro _
        exact h3
      · intro _
        have h4 := StageInv_install env 1 1 _ h3
        apply andThen_inv2 (StageInv 1 1)
        · intro _ _
          exact h4
        · intro _
          exact h4
        · intro _
          exact h4

/-- The instance-field assignments `this.originalPath = ...;
this.holdingPath = ...` performed by the stage step before its move. -/
def stageRecorded (s : Sys) (op : JStr) : Sys :=
  { s with st := { s.st with
      originalPath := some op
      holdingPath := some (holdingPathFor op) } }

/-- From a state in which nothing is recorded and nothing has been undone
yet, stage followed by the rest of the pipeline establishes and keeps the
record invariant, and performs at most one commit-remove and one
rollback-restore. -/
theorem stage_then_tail_inv (env : Env) (s : Sys)
    (hhold : s.st.holdingPath = none)
    (hrm : removeCount s.events = 0) (hrs : restoreCount s.events = 0) :
    StageInv 1 1 (andThen (moveOldAppIntoHolding env s) (fun s =>
      andThen (downloadAppZip env s) (fun s =>
      andThen (unzipApp env none s) (fun s =>
      andThen (removeOldApp env s) (fun s =>
      andThen (installNPMDependencies env s) (fun s =>
        (Outcome.ok s.st.outputPath, s))))))).2 := by
  cases hout : s.st.outputPath with
  | none =>
    have hstage : moveOldAppIntoHolding env s = (.ok (), s) := by
      simp [moveOldAppIntoHolding, hout]
    rw [hstage]
    simp only [andThen]
    apply tail_inv
    exact ⟨by rw [hhold, hout]; rfl, by omega, by omega⟩
  | some op =>
    by_cases hop : op.isEmpty = true
    · have hstage : moveOldAppIntoHolding env s = (.ok (), s) := by
        simp [moveOldAppIntoHolding, hout, hop]
      rw [hstage]
      simp only [andThen]
      apply tail_inv
      refine ⟨?_, by omega, by omega⟩
      rw [hhold, hout]
      simp [jsHoldingOf, hop]
    · have hstage : moveOldAppIntoHolding env s
          = fspMove env op (holdingPathFor op) (stageRecorded s op) := by
        simp [moveOldAppIntoHolding, hout, hop, stageRecorded]
      rw [hstage]
      rcases hmv : fspMove env op (holdingPathFor op) (stageRecorded s op) with ⟨o, s3⟩
      have hst3 : s3.st = (stageRecorded s op).st := by
        have hh := fspMove_st env op (holdingPathFor op) (stageRecorded s op)
        rw [hmv] at hh
        exact hh
      have hev3 : s3.events = s.events ++ [.fsMove op (holdingPathFor op)] := by
        have hh := fspMove_events env op (holdingPathFor op) (stageRecorded s op)
        rw [hmv] at hh
        exact hh
      have hinv3 : StageInv 0 0 s3 := by
        refine ⟨?_, ?_, ?_⟩
        · rw [hst3]
          simp [stageRecorded, jsHoldingOf, hout, hop]
        · rw [hev3, removeCount_append]
          have h0 : removeCount [Event.fsMove op (holdingPathFor op)] = 0 := by
            simp [removeCount, isRemoveEvent]
          omega
        · rw [hev3, restoreCount_append]
          have h0 : restoreCount [Event.fsMove op (holdingPathFor op)] = 0 := by
            simp [restoreCount, isRestoreMove_stage]
          omega
      cases o with
      | ok a =>
        cases a
        simp only [andThen]
        exact tail_inv env s3 hinv3
      | err e =>
        simp only [andThen]
        exact StageInv_mono (by omega) (by omega) hinv3
      | pending =>
        simp only [andThen]
        exact StageInv_mono (by omega) (by omega) hinv3

/-- C8 counterexample: a fully successful redeployment.  The commit
executes (the `fsp.remove` of the holding directory is in the trace,
and the pipeline resolves with the output path), yet the `holdingPath`
record is **not** cleared: it still holds `foo-bar-holding` when the
attempt ends, contradicting the claimed "holding path recorded iff not
yet undone / record cleared by commit or rollback". -/
theorem C8_counterexample :
    (download envHappy (initSys (some "B".toList) (some "K".toList)
        ⟨[("foo-bar".toList, 3)]⟩)).1 = .ok (some "foo-bar".toList) ∧
    Event.fsRemove (holdingPathFor "foo-bar".toList) ∈
      (download envHappy (initSys (some "B".toList) (some "K".toList)
        ⟨[("foo-bar".toList, 3)]⟩)).2.events ∧
    (download envHappy (initSys (some "B".toList) (some "K".toList)
        ⟨[("foo-bar".toList, 3)]⟩)).2.st.holdingPath
      = some (holdingPathFor "foo-bar".toList) := by
  refine ⟨?_, ?_, ?_⟩ <;>
    simp [download, initSys, truthy, andThen, fetchCurrentVersion, envHappy, Sys.log,
      moveOldAppIntoHolding, fspMove, FS.get, FS.set, FS.erase, lookupPath, removePath,
      downloadAppZip, unzipApp, unzipFrom, maxNumUnzipAttempts, applyUnzipEffect,
      removeOldApp, installNPMDependencies, outputPathFor, jsBasename, jsBasenameExt,
      zipExt, stripEnd, splitOnChar, joinWith, holdingPathFor, unzipCmd, npmCmd, jsStr]

/-- C8 amended: throughout every deployment attempt the `holdingPath`
record equals the holding sibling of the recorded `outputPath` whenever
that is non-empty (it is set before the stage move — even if the move
fails — and is never cleared by commit or rollback), and the attempt
performs at most one commit-remove and at most one rollback-restore (and
possibly neither). -/
theorem C8_holding_record_and_bounded_undo (env : Env) (b k : Option JStr) (fs0 : FS) :
    ((download env (initSys b k fs0)).2.st.holdingPath
        = jsHoldingOf (download env (initSys b k fs0)).2.st.outputPath) ∧
    removeCount (download env (initSys b k fs0)).2.events ≤ 1 ∧
    restoreCount (download env (initSys b k fs0)).2.events ≤ 1 := by
  suffices h : StageInv 1 1 (download env (initSys b k fs0)).2 from ⟨h.1, h.2.1, h.2.2⟩
  simp only [download, initSys]
  by_cases hcfg : (truthy b && truthy k) = true
  · rw [if_pos hcfg]
    cases hf : env.fetchResult with
    | none =>
      have hfe : fetchCurrentVersion env ⟨{ configBucket := b, configKey := k }, fs0, []⟩
          = (.err .fetchError,
             ⟨{ configBucket := b, configKey := k }, fs0, [.s3GetObject b k]⟩) := by
        simp [fetchCurrentVersion, hf, Sys.log]
      rw [hfe]
      simp only [andThen]
      refine ⟨rfl, ?_, ?_⟩ <;>
        simp [removeCount, restoreCount, isRemoveEvent, isRestoreMove]
    | some cfg =>
      have hfe : fetchCurrentVersion env ⟨{ configBucket := b, configKey := k }, fs0, []⟩
          = (.ok (),
             ⟨{ configBucket := b, configKey := k, appBucket := some cfg.bucket,
                appKey := some cfg.key, zipPath := some (jsBasename cfg.key),
                outputPath := some (outputPathFor (jsBasename cfg.key)) },
              fs0, [.s3GetObject b k]⟩) := by
        simp [fetchCurrentVersion, hf, Sys.log]
      rw [hfe]
      simp only [andThen]
      apply stage_then_tail_inv
      · rfl
      · simp [removeCount, isRemoveEvent]
      · simp [restoreCount, isRestoreMove]
  · rw [if_neg hcfg]
    refine ⟨rfl, ?_, ?_⟩ <;>
      simp [removeCount, restoreCount, isRemoveEvent, isRestoreMove]

theorem C8_holding_record_and_bounded_undo_witness :
    ((download envHappy (initSys (some "B".toList) (some "K".toList)
          ⟨[("foo-bar".toList, 3)]⟩)).2.st.holdingPath
        = jsHoldingOf (download envHappy (initSys (some "B".toList) (some "K".toList)
          ⟨[("foo-bar".toList, 3)]⟩)).2.st.outputPath) ∧
    removeCount (download envHappy (initSys (some "B".toList) (some "K".toList)
        ⟨[("foo-bar".toList, 3)]⟩)).2.events ≤ 1 ∧
    restoreCount (download envHappy (initSys (some "B".toList) (some "K".toList)
        ⟨[("foo-bar".toList, 3)]⟩)).2.events ≤ 1 :=
  C8_holding_record_and_bounded_undo envHappy (some "B".toList) (some "K".toList)
    ⟨[("foo-bar".toList, 3)]⟩
